import Mathlib

/-!
Verification of the syncmate replication tool: a shallow embedding of the
sampled digest (`logic.SampleMD5`), the profile-diff task planner
(`woc.GenerateFileLists`), the offset-view virtual filesystem
(`offsetfs.OffsetFS.Getattr` / `Read`), the file-move reconciler
(`woc.MoveFile`) and the receiver glue (`cmd.onFileTransferred`,
`cmd.virtualPathToSubdir`), together with theorems settling the frozen
claims about them.

File contents are modelled as lists of byte values (`List Nat`); the file
system seen by the planner is a partial map from paths to contents; the
128-bit hash used by the digest is an opaque parameter
`md5hex : List Nat -> String` standing for the lowercase-hex MD5 of a byte
stream, so every statement about digests is quantified over it.
-/

deriving instance DecidableEq for Except

namespace Syncmate

/-- Bytes of a file, one `Nat` per byte. -/
abbrev Bytes := List Nat

/-! ## Sampled digest (`logic/SampleMD5`, src/unnamed/part_001) -/

/-- `bitLength` on naturals: number of bits needed to represent `n`
(`for n > 0 { n >>= 1; length++ }`). -/
def bitLengthNat : Nat → Nat
  | 0 => 0
  | n + 1 => bitLengthNat ((n + 1) / 2) + 1
decreasing_by exact Nat.div_lt_self (Nat.succ_pos n) (by omega)

/-- `bitLength(n int64)`: 0 for `nltez` (the Go loop body never runs when
`n` is not positive), else the number of bits of `n`. -/
def bitLength (n : Int) : Int := if n ≤ 0 then 0 else bitLengthNat n.toNat

/-- Outcomes of `SampleMD5` other than success: the explicit
`supplied size > file size` error return, an I/O error (failed `Seek` /
`Read`), a missing file at `os.Stat`, and a Go runtime panic
(`make([]byte, n)` with negative `n`). -/
inductive SampleErr
  | rangeError
  | ioError
  | statError
  | panicked
deriving DecidableEq

/-- Mirror of `SampleMD5Result`: size of the considered portion and the
16-character digest. -/
structure SampleMD5Result where
  size : Int
  digest : String
deriving DecidableEq

/-- A 128-byte read window of `content` at absolute position `pos`
(shorter at end of file). -/
def readWin (content : Bytes) (pos : Nat) : Bytes :=
  (content.drop pos).take 128

/-- The chunk-hashing loop of `SampleMD5`: starting at file position `pos`,
each iteration seeks forward by `chunk - 128` and reads 128 bytes. -/
def sampleLoop (content : Bytes) (chunk : Nat) : Nat → Nat → Bytes
  | _, 0 => []
  | pos, n + 1 =>
      readWin content (pos + chunk - 128) ++
        sampleLoop content chunk (pos + chunk - 128 + 128) n

/-- `chunkSize := 1 << (bitLength(actualSize/bitLength(actualSize)) + 2)`
for a positive `actualSize` `a`. -/
def sampleChunk (a : Nat) : Nat := 2 ^ (bitLengthNat (a / bitLengthNat a) + 2)

/-- `numChunks := (actualSize - 256) / chunkSize`. -/
def sampleNumChunks (a : Nat) : Nat := (a - 256) / sampleChunk a

/-- Shallow embedding of `SampleMD5(filePath, skip, size)` on a file with
contents `content`, parametrised by the hash `md5hex`.  Mirrors the source:
effective size is `fsize - skip` when `size ≤ 0`; the range check rejects
`skip + actualSize > fsize`; files of at most 4096 effective bytes are
hashed whole (a negative effective size makes `make([]byte, actualSize)`
panic); larger files are sampled by 128-byte windows; the digest is the
first 16 hex characters of the hash. -/
def sampleMD5 (md5hex : Bytes → String) (content : Bytes) (skip size : Int) :
    Except SampleErr SampleMD5Result :=
  let fsize : Int := content.length
  let actualSize : Int := if size ≤ 0 then fsize - skip else size
  if skip + actualSize > fsize then .error .rangeError
  else if actualSize ≤ 4096 then
    if skip < 0 then .error .ioError
    else if actualSize < 0 then .error .panicked
    else
      .ok ⟨actualSize,
        (md5hex ((content.drop skip.toNat).take actualSize.toNat)).take 16⟩
  else
    if skip < 0 then .error .ioError
    else
      let a := actualSize.toNat
      let chunk := sampleChunk a
      let numChunks := sampleNumChunks a
      let fed := readWin content skip.toNat ++
        sampleLoop content chunk (skip.toNat + 128) numChunks ++
        readWin content (skip.toNat + a - 128)
      .ok ⟨actualSize, (md5hex fed).take 16⟩

/-- Window positions stated by the specification of the sampling rule:
one window at `skip`, one at `skip + i*chunk` for `i = 1 … num_chunks`,
and one at `skip + effective_size - 128`. -/
def specWindows (skip a : Nat) : List Nat :=
  skip :: (((List.range (sampleNumChunks a)).map
    (fun i => skip + (i + 1) * sampleChunk a)) ++ [skip + a - 128])

/-! ## Receiver subdirectory routing (`cmd.virtualPathToSubdir`) -/

/-- `strings.HasPrefix` on character lists. -/
def listStartsWith : List Char → List Char → Bool
  | _, [] => true
  | [], _ :: _ => false
  | c :: cs, p :: ps => c == p && listStartsWith cs ps

/-- `strings.Contains`: does `pat` occur as a contiguous substring? -/
def listContainsSub (pat : List Char) : List Char → Bool
  | [] => listStartsWith [] pat
  | c :: rest => listStartsWith (c :: rest) pat || listContainsSub pat rest

/-- Go `strings.Contains(s, sub)`. -/
def goContains (s sub : String) : Bool := listContainsSub sub.toList s.toList

/-- Go `strings.HasPrefix(s, pre)`. -/
def goStartsWith (s pre : String) : Bool := listStartsWith s.toList pre.toList

/-- Mirror of `virtualPathToSubdir` (src/cmd/recv.go): route a virtual name
to one of five fixed category directories. -/
def virtualPathToSubdir (virtualPath : String) : String :=
  if goContains virtualPath ".idx" || goContains virtualPath ".bin" then
    "All.blobs"
  else if goContains virtualPath ".s" then
    "gz"
  else if goStartsWith virtualPath "sha1." then
    "All.sha1o"
  else if goContains virtualPath "Full" then
    "basemaps"
  else
    "All.sha1c"

/-- The routing function as worded by the claim: precedence `.idx`/`.bin`,
then `.s`, then leading `sha1.`, then `Full`, else the default. Stated
separately so the code can be compared against it. -/
def virtualPathToSubdirSpec (v : String) : String :=
  if goContains v ".idx" || goContains v ".bin" then "All.blobs"
  else if goContains v ".s" then "gz"
  else if goStartsWith v "sha1." then "All.sha1o"
  else if goContains v "Full" then "basemaps"
  else "All.sha1c"

/-! ## Profile model and task planner (src/woc/woc.go) -/

/-- `WocFile`: one shard, with optional size and optional 16-char digest
(`nil` pointers modelled as `none`). -/
structure WocFile where
  path : String
  size : Option Int
  digest : Option String
deriving DecidableEq

/-- `WocObject`: sharding bits and the ordered shard list. -/
structure WocObject where
  shardingBits : Int
  shards : List WocFile
deriving DecidableEq

/-- `WocMap`: a versioned object group with large files (the Go `Larges`
map is modelled as an association list in iteration order). -/
structure WocMap where
  version : String
  shardingBits : Int
  shards : List WocFile
  larges : List (String × WocFile)
deriving DecidableEq

/-- `ParsedWocProfile`: name-keyed groups, modelled as association lists in
iteration order. -/
structure ParsedWocProfile where
  maps : List (String × WocMap)
  objects : List (String × WocObject)
deriving DecidableEq

/-- `offsetfs.FileConfig`: one entry of the offset-view filesystem. -/
structure FileConfig where
  virtualPath : String
  sourcePath : String
  offset : Int
  size : Int
deriving DecidableEq

/-- `WocSyncTask`: a `FileConfig` plus optional source/target digests. -/
structure WocSyncTask extends FileConfig where
  sourceDigest : Option String
  targetDigest : Option String
deriving DecidableEq

/-- The ways `GenerateFileLists` can die: `panic` on a nil shard size, on a
failed digest computation, on dereferencing a nil pointer, or on a
destination group with fewer shards than the source group. -/
inductive PlanErr
  | nilSize (path : String)
  | digestFailed
  | sampleFailed
  | nilDeref
  | indexOutOfRange
deriving DecidableEq

/-- The planner's accumulating `fileList` map, keyed by virtual path. -/
abbrev FileList := List (String × WocSyncTask)

/-- Go map assignment `fileList[k] = v` (replaces any existing entry). -/
def upsert (m : FileList) (k : String) (v : WocSyncTask) : FileList :=
  (k, v) :: m.filter (fun p => p.1 != k)

/-- Unix `filepath.Base`: strip trailing slashes and keep the last path
component; `""` gives `"."`, all-slashes gives `"/"`. -/
def baseName (s : String) : String :=
  if s = "" then "."
  else
    let t := (s.toList.reverse.dropWhile (· = '/')).reverse
    if t = [] then "/"
    else String.mk ((t.reverse.takeWhile (· ≠ '/')).reverse)

/-- `SampleMD5` on a path: `os.Stat` fails when the file is absent,
otherwise the digest runs over the file's contents. -/
def sampleMD5FS (fsys : String → Option Bytes) (md5hex : Bytes → String)
    (path : String) (skip size : Int) : Except SampleErr SampleMD5Result :=
  match fsys path with
  | none => .error .statError
  | some c => sampleMD5 md5hex c skip size

/-- `calcDigests` closure: panic when the size is nil; when the digest is
nil, compute `SampleMD5(path, 0, 0)` and panic on error.  The closure takes
its `WocFile` argument by value, so the digest it writes into its local
copy is invisible to the caller; only success or panic is observable. -/
def calcDigests (fsys : String → Option Bytes) (md5hex : Bytes → String)
    (f : WocFile) : Except PlanErr Unit :=
  if f.size = none then .error (.nilSize f.path)
  else if f.digest = none then
    match sampleMD5FS fsys md5hex f.path 0 0 with
    | .ok _ => .ok ()
    | .error _ => .error .digestFailed
  else .ok ()

/-- `addFullCopyTask` closure: register a whole-file task under
`basename(path)` with offset 0.  Because `calcDigests` cannot update the
caller's copy, the stored `sourceDigest` is the profile digest as-is. -/
def addFullCopyTask (fsys : String → Option Bytes) (md5hex : Bytes → String)
    (fl : FileList) (srcFile : WocFile) : Except PlanErr FileList :=
  let virtualPath := baseName srcFile.path
  match srcFile.size with
  | none => .error (.nilSize srcFile.path)
  | some sz =>
    match (if srcFile.digest = none then calcDigests fsys md5hex srcFile
           else (.ok () : Except PlanErr Unit)) with
    | .error e => .error e
    | .ok _ =>
      .ok (upsert fl virtualPath
        ⟨⟨virtualPath, srcFile.path, 0, sz⟩, srcFile.digest, none⟩)

/-- `addPartialCopyTask` closure: virtual name
`basename(src) + ".offset." + dst.size` (dereferencing `dst.Size` first),
falling back to a full copy when the source is smaller; otherwise register
an append window `[dst.size, src.size)`. -/
def addPartialCopyTask (fsys : String → Option Bytes)
    (md5hex : Bytes → String) (fl : FileList) (srcFile dstFile : WocFile) :
    Except PlanErr FileList :=
  match dstFile.size with
  | none => .error .nilDeref
  | some dsz =>
    let virtualPath := baseName srcFile.path ++ ".offset." ++ toString dsz
    match srcFile.size with
    | none => .error (.nilSize srcFile.path)
    | some ssz =>
      if ssz < dsz then addFullCopyTask fsys md5hex fl srcFile
      else
        match (if srcFile.digest = none then
                match calcDigests fsys md5hex srcFile with
                | .error e => .error e
                | .ok _ =>
                  match (if srcFile.digest = none then
                          calcDigests fsys md5hex srcFile
                        else (.ok () : Except PlanErr Unit)) with
                  | .error e => .error e
                  | .ok _ =>
                    if dstFile.digest = none then
                      calcDigests fsys md5hex dstFile
                    else .ok ()
              else (.ok () : Except PlanErr Unit)) with
        | .error e => .error e
        | .ok _ =>
          .ok (upsert fl virtualPath
            ⟨⟨virtualPath, srcFile.path, dsz, ssz - dsz⟩,
              srcFile.digest, dstFile.digest⟩)

/-- A Go `for … { if err { panic } }` loop over `xs` threading the file
list, where each step may panic. -/
def planFold (f : FileList → α → Except PlanErr FileList) :
    FileList → List α → Except PlanErr FileList
  | fl, [] => .ok fl
  | fl, x :: xs =>
    match f fl x with
    | .error e => .error e
    | .ok fl' => planFold f fl' xs

/-- Body of the objects loop for one shard at index `i`: full copy when the
destination group is absent or ahead; with the digest check skipped, a full
copy followed by a partial copy (the code falls through); otherwise the
prefix digest decides between full copy and partial copy.  Any `SampleMD5`
failure is a panic. -/
def processObjectShard (fsys : String → Option Bytes)
    (md5hex : Bytes → String) (skipPartDigestCheck : Bool)
    (oldGroup : Option WocObject) (fl : FileList) (i : Nat)
    (shard : WocFile) : Except PlanErr FileList :=
  match oldGroup with
  | none => addFullCopyTask fsys md5hex fl shard
  | some oldMap =>
    match oldMap.shards[i]? with
    | none => .error .indexOutOfRange
    | some oldShard =>
      match oldShard.size, shard.size with
      | some osz, some ssz =>
        if ssz < osz then addFullCopyTask fsys md5hex fl shard
        else if skipPartDigestCheck then
          match addFullCopyTask fsys md5hex fl shard with
          | .error e => .error e
          | .ok fl' => addPartialCopyTask fsys md5hex fl' shard oldShard
        else
          match sampleMD5FS fsys md5hex shard.path 0 osz with
          | .error _ => .error .sampleFailed
          | .ok partialMd5 =>
            match oldShard.digest with
            | none => .error .nilDeref
            | some od =>
              if partialMd5.digest ≠ od then
                addFullCopyTask fsys md5hex fl shard
              else addPartialCopyTask fsys md5hex fl shard oldShard
      | _, _ => .error .nilDeref

/-- Body of the maps loop for one `name -> WocMap` entry: when the name is
new or the source version is strictly higher, full-copy every shard and
every large file. -/
def processMapGroup (fsys : String → Option Bytes) (md5hex : Bytes → String)
    (dstMaps : List (String × WocMap)) (fl : FileList)
    (kv : String × WocMap) : Except PlanErr FileList :=
  let copyAll := planFold (fun fl' s => addFullCopyTask fsys md5hex fl' s) fl
    (kv.2.shards ++ kv.2.larges.map Prod.snd)
  match dstMaps.lookup kv.1 with
  | none => copyAll
  | some oldMap => if oldMap.version < kv.2.version then copyAll else .ok fl

/-- Body of the objects loop for one `name -> WocObject` entry. -/
def processObjectGroup (fsys : String → Option Bytes)
    (md5hex : Bytes → String) (skipPartDigestCheck : Bool)
    (dstObjects : List (String × WocObject)) (fl : FileList)
    (kv : String × WocObject) : Except PlanErr FileList :=
  planFold
    (fun fl' p =>
      processObjectShard fsys md5hex skipPartDigestCheck
        (dstObjects.lookup kv.1) fl' p.1 p.2)
    fl kv.2.shards.enum

/-- Shallow embedding of `GenerateFileLists(dstProfile, srcProfile,
skipPartDigestCheck)`: diff the profiles into a map of sync tasks, the maps
loop first, then the objects loop.  A Go panic is an `.error`. -/
def GenerateFileLists (fsys : String → Option Bytes)
    (md5hex : Bytes → String) (dstProfile srcProfile : ParsedWocProfile)
    (skipPartDigestCheck : Bool) : Except PlanErr FileList :=
  match planFold (processMapGroup fsys md5hex dstProfile.maps) []
      srcProfile.maps with
  | .error e => .error e
  | .ok fl =>
    planFold
      (processObjectGroup fsys md5hex skipPartDigestCheck
        dstProfile.objects)
      fl srcProfile.objects

/-! ## Offset-view VFS (src/offsetfs/umount_fuse.go) -/

/-- Size computation of `OffsetFS.Getattr` (lines 107-139) for an entry
`(offset, size)` over a source file of `srcSize` bytes. -/
def getattrSize (srcSize offset size : Int) : Int :=
  if offset = 0 ∧ size = 0 then srcSize
  else if size = 0 then
    if offset ≥ srcSize then 0 else srcSize - offset
  else if offset = 0 then
    if srcSize < size then srcSize else size
  else
    let availableSize := if srcSize > offset then srcSize - offset else 0
    if availableSize < size then availableSize else size

/-- The tail of `OffsetFS.Read`: stat the source, return 0 bytes at or past
end of file, clamp the read size to the file end, then `ReadAt`.  A
negative offset or length handed to `ReadAt` is an error (`EIO` = 5). -/
def ofsReadAt (content : Bytes) (actualOffset maxReadSize : Int) :
    Except Int Bytes :=
  let fsize : Int := content.length
  if actualOffset ≥ fsize then .ok []
  else
    let m := if actualOffset + maxReadSize > fsize then fsize - actualOffset
             else maxReadSize
    if actualOffset < 0 ∨ m < 0 then .error 5
    else .ok ((content.drop actualOffset.toNat).take m.toNat)

/-- Shallow embedding of `OffsetFS.Read` on an entry `(offset, size)` whose
source file has contents `content`, for a destination buffer of `buffLen`
bytes at relative offset `ofst`.  Returns the bytes placed in the buffer
(the Go return value is their count). -/
def ofsRead (content : Bytes) (offset size buffLen ofst : Int) :
    Except Int Bytes :=
  if offset = 0 ∧ size = 0 then ofsReadAt content ofst buffLen
  else if size > 0 ∧ size - ofst ≤ 0 then .ok []
  else
    let maxReadSize := if size > 0 then min buffLen (size - ofst)
                       else buffLen
    ofsReadAt content (offset + ofst) maxReadSize

/-! ## File-move / append reconciler (src/woc/filemove.go) -/

/-- `CopyMode`. -/
inductive CopyMode
  | overwrite
  | append
deriving DecidableEq

/-- The distinct failure returns of `MoveFile`. -/
inductive MoveErr
  | sourceMissing
  | notRegular
  | digestComputeFailed
  | digestPrecheckFailed
  | sizePrecheckFailed
  | digestPostcheckFailed
deriving DecidableEq

/-- The slice of the filesystem `MoveFile` touches: the source file (its
contents and regular-file flag; `none` when absent) and the destination
file's contents (`none` when absent). -/
structure MoveState where
  src : Option (Bytes × Bool)
  dst : Option Bytes
deriving DecidableEq

/-- Shallow embedding of `MoveFile(srcPath, dstPath, mode,
expectedDigestAfterTransfer, expectedDstSizeBeforeTransfer)`: returns the
Go result together with the filesystem slice after the call.  Stat and
open failures on an existing source, lock failures, short copies and
truncate failures do not arise in the model; digests are `SampleMD5(_,0,0)`
over the modelled contents. -/
def moveFile (md5hex : Bytes → String) (st : MoveState) (mode : CopyMode)
    (expectedDigestAfterTransfer : String)
    (expectedDstSizeBeforeTransfer : Int) :
    Except MoveErr Unit × MoveState :=
  match st.src with
  | none => (.error .sourceMissing, st)
  | some (srcContents, isRegular) =>
    if isRegular = false then (.error .notRegular, st)
    else
      match (if mode = .overwrite ∧ expectedDigestAfterTransfer ≠ "" then
              match sampleMD5 md5hex srcContents 0 0 with
              | .error _ => (.error .digestComputeFailed :
                  Except MoveErr Unit)
              | .ok r =>
                if r.digest ≠ expectedDigestAfterTransfer then
                  .error .digestPrecheckFailed
                else .ok ()
            else (.ok () : Except MoveErr Unit)) with
      | .error e => (.error e, st)
      | .ok _ =>
        let lockCreated : Bytes := st.dst.getD []
        let dstOpened : Bytes :=
          match mode with
          | .overwrite => []
          | .append => lockCreated
        let st2 : MoveState := { st with dst := some dstOpened }
        let dstSize : Int := dstOpened.length
        if mode = .append ∧ 0 ≤ expectedDstSizeBeforeTransfer ∧
            dstSize ≠ expectedDstSizeBeforeTransfer then
          (.error .sizePrecheckFailed, st2)
        else
          let dstAfter : Bytes := dstOpened ++ srcContents
          let st3 : MoveState := { st with dst := some dstAfter }
          if mode = .append ∧ expectedDigestAfterTransfer ≠ "" then
            match sampleMD5 md5hex dstAfter 0 0 with
            | .error _ => (.error .digestComputeFailed, st3)
            | .ok r =>
              if r.digest ≠ expectedDigestAfterTransfer then
                (.error .digestPostcheckFailed,
                  { st with dst := some (dstAfter.take dstSize.toNat) })
              else (.ok (), { st3 with src := none })
          else (.ok (), { st3 with src := none })

/-! ## Receiver reconciliation callback (src/cmd/recv.go) -/

/-- Task statuses of the progress store. -/
inductive TaskStatus
  | pending
  | uploading
  | uploaded
  | downloading
  | downloaded
  | failed
deriving DecidableEq

/-- The externally visible actions `onFileTransferred` performs, in
order. -/
inductive RecvEvent
  | moveFileCall
  | updateTask (status : TaskStatus)
  | deleteCallback
deriving DecidableEq

/-- Shallow embedding of `onFileTransferred`: its collaborators (the
`MoveFile` call, the task-store update, the bucket-delete callback) are
abstracted by their outcomes, and the embedding records the trace of
actions it performs together with the returned error.  `dbPresent` models
`dbHandle != nil`. -/
def onFileTransferred (moveRes : Except MoveErr Unit) (dbPresent : Bool)
    (updateRes : Except Unit Unit) (callbackRes : Except Unit Unit) :
    List RecvEvent × Except Unit Unit :=
  match moveRes with
  | .error _ => ([.moveFileCall], .error ())
  | .ok _ =>
    if dbPresent = false then ([.moveFileCall], .ok ())
    else
      match updateRes with
      | .error _ =>
        ([.moveFileCall, .updateTask .downloaded], .error ())
      | .ok _ =>
        match callbackRes with
        | .error _ =>
          ([.moveFileCall, .updateTask .downloaded, .deleteCallback],
            .error ())
        | .ok _ =>
          ([.moveFileCall, .updateTask .downloaded, .deleteCallback],
            .ok ())

/-! ## Theorems -/

/-- C10: `virtualPathToSubdir` is a total function matching the claimed
precedence (`.idx`/`.bin` → `All.blobs`, then `.s` → `gz`, then leading
`sha1.` → `All.sha1o`, then `Full` → `basemaps`, default `All.sha1c`), and
its range is exactly the five category directories. -/
theorem virtualPathToSubdir_range :
    (∀ v, virtualPathToSubdir v = virtualPathToSubdirSpec v) ∧
    (∀ v, virtualPathToSubdir v = "All.blobs" ∨
      virtualPathToSubdir v = "gz" ∨
      virtualPathToSubdir v = "All.sha1o" ∨
      virtualPathToSubdir v = "basemaps" ∨
      virtualPathToSubdir v = "All.sha1c") ∧
    virtualPathToSubdir "sha1.blob.idx" = "All.blobs" ∧
    virtualPathToSubdir "a.s" = "gz" ∧
    virtualPathToSubdir "sha1.cache" = "All.sha1o" ∧
    virtualPathToSubdir "FullU.0" = "basemaps" ∧
    virtualPathToSubdir "x" = "All.sha1c" := by
  refine ⟨fun v => rfl, fun v => ?_,
    by decide, by decide, by decide, by decide, by decide⟩
  unfold virtualPathToSubdir
  split_ifs <;> simp

/-- C6: for a mounted entry with `offset ≥ 0` and `size ≥ 0` whose source
file exists, `Getattr` reports the size given by the specification table:
`filesize` when both are 0, `min(filesize, S)` when only the offset is 0,
`max(0, filesize − O)` when only the size is 0, and
`min(max(0, filesize − O), S)` otherwise. -/
theorem getattr_size_table (filesize offset size : Int)
    (_hO : 0 ≤ offset) (_hS : 0 ≤ size) :
    getattrSize filesize offset size =
      if offset = 0 ∧ size = 0 then filesize
      else if offset = 0 then min filesize size
      else if size = 0 then max 0 (filesize - offset)
      else min (max 0 (filesize - offset)) size := by
  unfold getattrSize
  simp only [min_def, max_def]
  split_ifs <;> omega

/-- Witness for C6 at the spec's scenario 6: entry `(O=10, S=20)` over a
15-byte source reports size 5. -/
theorem getattr_size_table_witness :
    (0 : Int) ≤ 10 ∧ (0 : Int) ≤ 20 ∧
      getattrSize 15 10 20 =
        (if (10 : Int) = 0 ∧ (20 : Int) = 0 then (15 : Int)
         else if (10 : Int) = 0 then min 15 20
         else if (20 : Int) = 0 then max 0 (15 - 10)
         else min (max 0 ((15 : Int) - 10)) 20) :=
  ⟨by decide, by decide, getattr_size_table 15 10 20 (by decide) (by decide)⟩

/-- Counterexample for C5 as stated: with `size ≤ 0` and
`skip > filesize` (file of 1 byte, `skip = 2`), `SampleMD5` does not
return; it reaches `make([]byte, actualSize)` with the negative effective
size `-1` and panics. -/
theorem sampleMD5_skip_past_end_panics :
    sampleMD5 (fun _ => "") [7] 2 0 = .error .panicked := by decide

/-- C5 (amended): for `skip ≥ 0`, the effective size is
`filesize − skip` when `size ≤ 0`; the call fails with the range error
exactly when `skip + effective_size > filesize`; it returns a result in
every other case — except that when `size ≤ 0` and `skip > filesize` it
panics on allocating a buffer of negative length instead of returning. -/
theorem sampleMD5_contract (md5hex : Bytes → String) (content : Bytes)
    (skip size : Int) (hskip : 0 ≤ skip) :
    (size ≤ 0 → skip ≤ (content.length : Int) →
      ∃ d, sampleMD5 md5hex content skip size =
        .ok ⟨(content.length : Int) - skip, d⟩) ∧
    (sampleMD5 md5hex content skip size = .error .rangeError ↔
      skip + (if size ≤ 0 then (content.length : Int) - skip else size) >
        (content.length : Int)) ∧
    (0 < size → skip + size ≤ (content.length : Int) →
      ∃ d, sampleMD5 md5hex content skip size = .ok ⟨size, d⟩) ∧
    (size ≤ 0 → (content.length : Int) < skip →
      sampleMD5 md5hex content skip size = .error .panicked) := by
  refine ⟨?_, ?_, ?_, ?_⟩
  · intro hsz hle
    simp only [sampleMD5]
    split_ifs with h1 h2 h3 h4 <;> try omega
    · exact ⟨_, rfl⟩
    · exact ⟨_, rfl⟩
  · simp only [sampleMD5]
    split_ifs with h1 h2 h3 h4 <;> simp <;> omega
  · intro hsz hle
    simp only [sampleMD5]
    split_ifs with h1 h2 h3 h4 <;> try omega
    · exact ⟨_, rfl⟩
    · exact ⟨_, rfl⟩
  · intro hsz hlt
    simp only [sampleMD5]
    split_ifs with h1 h2 h3 h4 <;> first | rfl | omega

/-- Witness for C5 at a 2-byte file, `skip = 1`, `size = 0`: the call
returns a result of effective size 1. -/
theorem sampleMD5_contract_witness :
    (0 : Int) ≤ 1 ∧
      ∃ d, sampleMD5 (fun _ => "md") [3, 3] 1 0 =
        .ok ⟨(([3, 3] : Bytes).length : Int) - 1, d⟩ :=
  ⟨by decide,
    (sampleMD5_contract (fun _ => "md") [3, 3] 1 0 (by decide)).1
      (by decide) (by decide)⟩

set_option maxRecDepth 4000 in
/-- The chunk loop of `SampleMD5`, entered at file position `p + 128`,
reads exactly the 128-byte windows at `p + i*chunk` for `i = 1 … n`. -/
theorem sampleLoop_windows (c : Bytes) (chunk : Nat) (n : Nat) :
    ∀ p, sampleLoop c chunk (p + 128) n =
      ((List.range n).map (fun i => readWin c (p + (i + 1) * chunk))).flatten := by
  induction n with
  | zero => intro p; rfl
  | succ k ih =>
    intro p
    have h1 : p + 128 + chunk - 128 = p + chunk := by omega
    rw [sampleLoop, h1, ih (p + chunk), List.range_succ_eq_map,
      List.map_cons, List.map_map, List.flatten_cons]
    have e1 : readWin c (p + (0 + 1) * chunk) = readWin c (p + chunk) := by
      norm_num
    have e2 : List.map ((fun i => readWin c (p + (i + 1) * chunk)) ∘ Nat.succ)
        (List.range k) =
        List.map (fun i => readWin c (p + chunk + (i + 1) * chunk))
          (List.range k) := by
      apply List.map_congr_left
      intro i _
      simp only [Function.comp_apply, Nat.succ_eq_add_one]
      have e3 : p + (i + 1 + 1) * chunk = p + chunk + (i + 1) * chunk := by ring
      rw [e3]
    rw [e1, e2]

/-- C4: for effective size `a > 4096` (and a valid range), `SampleMD5`
feeds the hash exactly `num_chunks + 2` windows of 128 bytes — at `skip`,
at `skip + i*chunk` for `i = 1 … num_chunks`, and at `skip + a − 128`,
with `chunk = 1 <<< (bitLength (a / bitLength a) + 2)` and
`num_chunks = (a − 256) / chunk` — and returns the first 16 characters of
the hash of those windows. -/
theorem sampleMD5_windows (md5hex : Bytes → String) (content : Bytes)
    (skip size : Int) (a : Nat)
    (hskip : 0 ≤ skip)
    (ha : (a : Int) = if size ≤ 0 then (content.length : Int) - skip
      else size)
    (hbound : skip + (a : Int) ≤ (content.length : Int))
    (hbig : 4096 < a) :
    sampleMD5 md5hex content skip size =
      .ok ⟨(a : Int),
        (md5hex (((specWindows skip.toNat a).map
          (readWin content)).flatten)).take 16⟩ ∧
    (specWindows skip.toNat a).length = sampleNumChunks a + 2 ∧
    (∀ w ∈ specWindows skip.toNat a, (readWin content w).length = 128) := by
  refine ⟨?_, ?_, ?_⟩
  · simp only [sampleMD5, ← ha]
    have hr : ¬ (skip + (a : Int) > (content.length : Int)) := by omega
    have hs : ¬ ((a : Int) ≤ 4096) := by exact_mod_cast by omega
    have hsk : ¬ (skip < 0) := by omega
    simp only [if_neg hr, if_neg hs, if_neg hsk, Int.toNat_natCast]
    rw [sampleLoop_windows content (sampleChunk a) (sampleNumChunks a)
      skip.toNat]
    simp [specWindows, List.map_map, Function.comp_def]
  · simp [specWindows]
  · intro w hw
    have hlen : skip.toNat + a ≤ content.length := by omega
    have hwb : w + 128 ≤ content.length := by
      simp only [specWindows, List.mem_cons, List.mem_append,
        List.mem_map, List.mem_range, List.mem_singleton] at hw
      rcases hw with h | ⟨i, hi, rfl⟩ | h | h
      · omega
      · have h5 : (i + 1) * sampleChunk a ≤
            sampleNumChunks a * sampleChunk a :=
          Nat.mul_le_mul_right _ (by omega)
        have h6 : sampleNumChunks a * sampleChunk a ≤ a - 256 :=
          Nat.div_mul_le_self _ _
        omega
      · omega
      · simp at h
    simp only [readWin, List.length_take, List.length_drop]
    omega

/-- Witness for C4 on a 4097-byte file read whole (`skip = 0`,
`size = 0`): the digest is the hash of the spec's windows, truncated to
16 characters. -/
theorem sampleMD5_windows_witness :
    (0 : Int) ≤ 0 ∧ 4096 < 4097 ∧
      sampleMD5 (fun _ => "") (List.replicate 4097 0) 0 0 =
        .ok ⟨((4097 : Nat) : Int),
          ((fun _ => "")
            (((specWindows (0 : Int).toNat 4097).map
              (readWin (List.replicate 4097 0))).flatten) : String).take 16⟩ :=
  ⟨le_refl 0, by omega,
    (sampleMD5_windows (fun _ => "") (List.replicate 4097 0) 0 0 4097
      (le_refl 0) (by norm_num [List.length_replicate])
      (by norm_num [List.length_replicate]) (by norm_num)).1⟩

/-- A take of nonpositive length is empty. -/
theorem take_eq_nil_of_nonpos (c : Bytes) (A : Nat) (B : Int) (h : B ≤ 0) :
    ([] : Bytes) = (c.drop A).take B.toNat := by
  rw [Int.toNat_of_nonpos h, List.take_zero]

/-- Congruence for a window read expressed as drop-then-take. -/
theorem take_drop_congr (c : Bytes) (A B A2 B2 : Int) (hA : A = A2)
    (hB : B = B2) :
    (c.drop A.toNat).take B.toNat = (c.drop A2.toNat).take B2.toNat := by
  rw [hA, hB]

/-- C7: `OffsetFS.Read` on an entry `(O, S)` returns the source bytes at
absolute offset `O + rel_off`, of length `min(L, S − rel_off)` when
`S > 0` else `L`, clamped to the end of the source file (never negative);
and a read starting at or past the reported (virtual) size returns 0 bytes
— in all cases without error. -/
theorem read_locality (content : Bytes) (offset size buffLen ofst : Int)
    (hO : 0 ≤ offset) (hS : 0 ≤ size) (hofst : 0 ≤ ofst)
    (hL : 0 ≤ buffLen) :
    ofsRead content offset size buffLen ofst =
      .ok ((content.drop (offset + ofst).toNat).take
        (min (if size > 0 then min buffLen (size - ofst) else buffLen)
          ((content.length : Int) - (offset + ofst))).toNat) ∧
    (getattrSize (content.length : Int) offset size ≤ ofst →
      ofsRead content offset size buffLen ofst = .ok []) := by
  have hmain : ofsRead content offset size buffLen ofst =
      .ok ((content.drop (offset + ofst).toNat).take
        (min (if size > 0 then min buffLen (size - ofst) else buffLen)
          ((content.length : Int) - (offset + ofst))).toNat) := by
    simp only [ofsRead, ofsReadAt]
    split_ifs <;>
      first
        | (exfalso; omega)
        | (simp only [Except.ok.injEq]
           exact take_eq_nil_of_nonpos _ _ _ (by omega))
        | (simp only [Except.ok.injEq]
           exact take_drop_congr _ _ _ _ _ (by omega) (by omega))
  refine ⟨hmain, ?_⟩
  intro h
  rw [hmain]
  simp only [Except.ok.injEq]
  refine (take_eq_nil_of_nonpos _ _ _ ?_).symm
  simp only [getattrSize] at h
  split_ifs at h <;> split_ifs <;> omega

/-- Witness for C7 at the spec's scenario 6: entry `(O=10, S=20)` over a
15-byte source, reading 100 bytes at relative offset 3 returns the 2 bytes
at source positions 13 and 14. -/
theorem read_locality_witness :
    (0 : Int) ≤ 10 ∧ (0 : Int) ≤ 20 ∧ (0 : Int) ≤ 3 ∧ (0 : Int) ≤ 100 ∧
      ofsRead (List.range 15) 10 20 100 3 =
        .ok (((List.range 15 : Bytes).drop ((10 : Int) + 3).toNat).take
          (min (if (20 : Int) > 0 then min 100 (20 - 3) else 100)
            (((List.range 15 : Bytes).length : Int) - (10 + 3))).toNat) :=
  ⟨by decide, by decide, by decide, by decide,
    (read_locality (List.range 15) 10 20 100 3 (by decide) (by decide)
      (by decide) (by decide)).1⟩

/-- Appending a nonempty string changes a string. -/
theorem ne_append_of_pos (s t : String) (h : 0 < t.length) : s ≠ s ++ t := by
  intro he
  have hl := congrArg String.length he
  rw [String.length_append] at hl
  omega

/-- Counterexample to C1 as stated: on a paired shard with
`dst.size = 50 ≤ src.size = 100` and `skip_partial_digest_check = true`,
the planner emits two tasks, including the append task
`a.bin.offset.50` the claim rules out (the skip branch falls through to
`addPartialCopyTask`). -/
theorem planner_skip_emits_append_cex :
    GenerateFileLists (fun _ => none) (fun _ => "")
      ⟨[], [("obj", ⟨1, [⟨"/d/a.bin", some 50, some "x"⟩]⟩)]⟩
      ⟨[], [("obj", ⟨1, [⟨"/d/a.bin", some 100, some "y"⟩]⟩)]⟩ true =
    .ok [("a.bin.offset.50",
           ⟨⟨"a.bin.offset.50", "/d/a.bin", 50, 50⟩, some "y", some "x"⟩),
         ("a.bin", ⟨⟨"a.bin", "/d/a.bin", 0, 100⟩, some "y", none⟩)] := by
  decide

/-- C1 (amended): for a paired object-group shard `(src, dst)` with
`dst.size ≤ src.size` and `skip_partial_digest_check = true` (source
digest present in the profile), the planner emits exactly two tasks for
the shard: the full-copy task `basename(src.path)` with offset 0 and size
`src.size`, and the append task
`basename(src.path) + ".offset." + decimal(dst.size)` with offset
`dst.size` and size `src.size − dst.size`. -/
theorem planner_skip_both (fsys : String → Option Bytes)
    (md5hex : Bytes → String) (name sp dp : String) (b1 b2 ss ds : Int)
    (sd : String) (dd : Option String) (hle : ds ≤ ss) :
    GenerateFileLists fsys md5hex
      ⟨[], [(name, ⟨b2, [⟨dp, some ds, dd⟩]⟩)]⟩
      ⟨[], [(name, ⟨b1, [⟨sp, some ss, some sd⟩]⟩)]⟩ true =
    .ok [(baseName sp ++ ".offset." ++ toString ds,
           ⟨⟨baseName sp ++ ".offset." ++ toString ds, sp, ds, ss - ds⟩,
             some sd, dd⟩),
         (baseName sp, ⟨⟨baseName sp, sp, 0, ss⟩, some sd, none⟩)] := by
  have h8 : 0 < (".offset." ++ toString ds).length := by
    rw [String.length_append]
    have he : (".offset." : String).length = 8 := rfl
    omega
  have hnb : ((baseName sp) !=
      (baseName sp ++ (".offset." ++ toString ds))) = true := by
    simp only [bne_iff_ne, ne_eq]
    exact ne_append_of_pos _ _ h8
  simp [GenerateFileLists, planFold, processMapGroup, processObjectGroup,
    processObjectShard, addFullCopyTask, addPartialCopyTask, calcDigests,
    List.enum, List.enumFrom, List.lookup, upsert, not_lt.mpr hle, hnb,
    String.append_assoc]

/-- Witness for C1 (amended) on a 100-byte source over a 50-byte
destination. -/
theorem planner_skip_both_witness :
    (50 : Int) ≤ 100 ∧
      GenerateFileLists (fun _ => none) (fun _ => "")
        ⟨[], [("obj", ⟨1, [⟨"/d/b.bin", some 50, some "x"⟩]⟩)]⟩
        ⟨[], [("obj", ⟨1, [⟨"/d/b.bin", some 100, some "y"⟩]⟩)]⟩ true =
      .ok [(baseName "/d/b.bin" ++ ".offset." ++ toString (50 : Int),
             ⟨⟨baseName "/d/b.bin" ++ ".offset." ++ toString (50 : Int),
               "/d/b.bin", 50, 100 - 50⟩, some "y", some "x"⟩),
           (baseName "/d/b.bin",
             ⟨⟨baseName "/d/b.bin", "/d/b.bin", 0, 100⟩, some "y", none⟩)] :=
  ⟨by decide,
    planner_skip_both (fun _ => none) (fun _ => "") "obj" "/d/b.bin"
      "/d/b.bin" 1 1 100 50 "y" (some "x") (by decide)⟩

/-- Counterexample to C2 as stated: with equal sizes (10 = 10), a matching
prefix digest and `skip_partial_digest_check = false`, the planner does
emit a task for the shard — an append task of size 0 — so not every task
in the output has positive size. -/
theorem planner_equal_size_emits_task_cex :
    GenerateFileLists
      (fun p => if p = "/d/a.bin" then some (List.replicate 10 7) else none)
      (fun _ => "0123456789abcdef0123456789abcdef")
      ⟨[], [("obj", ⟨1, [⟨"/d/a.bin", some 10, some "0123456789abcdef"⟩]⟩)]⟩
      ⟨[], [("obj", ⟨1, [⟨"/d/a.bin", some 10, some "y"⟩]⟩)]⟩ false =
    .ok [("a.bin.offset.10",
           ⟨⟨"a.bin.offset.10", "/d/a.bin", 10, 0⟩, some "y",
             some "0123456789abcdef"⟩)] := by
  decide

/-- C2 (amended): for a paired shard with `src.size = dst.size = s` and a
matching sampled prefix digest (`skip_partial_digest_check = false`), the
planner emits exactly one task for the shard: the append task
`basename(src.path) + ".offset." + decimal(s)` with offset `s` and size 0.
The output can therefore contain tasks of size 0. -/
theorem planner_equal_size_zero_append (fsys : String → Option Bytes)
    (md5hex : Bytes → String) (name sp dp : String) (b1 b2 s : Int)
    (sd dg : String) (c : Bytes) (r : SampleMD5Result)
    (hfs : fsys sp = some c) (hr : sampleMD5 md5hex c 0 s = .ok r)
    (hmatch : r.digest = dg) :
    GenerateFileLists fsys md5hex
      ⟨[], [(name, ⟨b2, [⟨dp, some s, some dg⟩]⟩)]⟩
      ⟨[], [(name, ⟨b1, [⟨sp, some s, some sd⟩]⟩)]⟩ false =
    .ok [(baseName sp ++ ".offset." ++ toString s,
           ⟨⟨baseName sp ++ ".offset." ++ toString s, sp, s, 0⟩,
             some sd, some dg⟩)] := by
  simp [GenerateFileLists, planFold, processMapGroup, processObjectGroup,
    processObjectShard, addFullCopyTask, addPartialCopyTask, calcDigests,
    sampleMD5FS, List.enum, List.enumFrom, List.lookup, upsert, hfs, hr,
    hmatch, String.append_assoc]

/-- Witness for C2 (amended) on a 10-byte file whose sampled digest is the
first 16 characters of the modelled hash output. -/
theorem planner_equal_size_zero_append_witness :
    (fun p => if p = "/d/c.bin" then some (List.replicate 10 7) else none)
        "/d/c.bin" = some (List.replicate 10 7) ∧
    sampleMD5 (fun _ => "0123456789abcdef0123456789abcdef")
        (List.replicate 10 7) 0 10 =
      .ok ⟨10, "0123456789abcdef"⟩ ∧
    GenerateFileLists
      (fun p => if p = "/d/c.bin" then some (List.replicate 10 7) else none)
      (fun _ => "0123456789abcdef0123456789abcdef")
      ⟨[], [("obj", ⟨1, [⟨"/d/c.bin", some 10, some "0123456789abcdef"⟩]⟩)]⟩
      ⟨[], [("obj", ⟨1, [⟨"/d/c.bin", some 10, some "y"⟩]⟩)]⟩ false =
    .ok [(baseName "/d/c.bin" ++ ".offset." ++ toString (10 : Int),
           ⟨⟨baseName "/d/c.bin" ++ ".offset." ++ toString (10 : Int),
             "/d/c.bin", 10, 0⟩, some "y", some "0123456789abcdef"⟩)] :=
  ⟨by decide, by decide,
    planner_equal_size_zero_append _ _ "obj" "/d/c.bin" "/d/c.bin" 1 1 10
      "y" "0123456789abcdef" (List.replicate 10 7) ⟨10, "0123456789abcdef"⟩
      (by decide) (by decide) (by decide)⟩

/-- Counterexample to C3 as stated: with the source file missing during
the prefix digest check, `GenerateFileLists` does not return normally with
a full-copy task — it fails (the Go code panics on the `SampleMD5`
error). -/
theorem planner_missing_source_cex :
    GenerateFileLists (fun _ => none) (fun _ => "")
      ⟨[], [("obj", ⟨1, [⟨"/d/a.bin", some 10, some "0123456789abcdef"⟩]⟩)]⟩
      ⟨[], [("obj", ⟨1, [⟨"/d/a.bin", some 10, some "y"⟩]⟩)]⟩ false =
    .error .sampleFailed := by
  decide

/-- C3 (amended): if the source file of a shard is missing when the
planner computes a digest over it — during the prefix check, or because
the profile digest is absent — `GenerateFileLists` fails with the
propagated panic instead of emitting a full-copy task. -/
theorem planner_missing_source_panics (fsys : String → Option Bytes)
    (md5hex : Bytes → String) (name v sp dp : String) (b1 b2 ss ds : Int)
    (sd dd : Option String) (anyBool : Bool)
    (hfs : fsys sp = none) (hle : ds ≤ ss) :
    GenerateFileLists fsys md5hex
      ⟨[], [(name, ⟨b2, [⟨dp, some ds, dd⟩]⟩)]⟩
      ⟨[], [(name, ⟨b1, [⟨sp, some ss, sd⟩]⟩)]⟩ false =
      .error .sampleFailed ∧
    GenerateFileLists fsys md5hex ⟨[], []⟩
      ⟨[(name, ⟨v, b1, [⟨sp, some ss, none⟩], []⟩)], []⟩ anyBool =
      .error .digestFailed := by
  constructor
  · simp [GenerateFileLists, planFold, processMapGroup, processObjectGroup,
      processObjectShard, addFullCopyTask, addPartialCopyTask, calcDigests,
      sampleMD5FS, List.enum, List.enumFrom, List.lookup, upsert, hfs,
      not_lt.mpr hle]
  · simp [GenerateFileLists, planFold, processMapGroup, processObjectGroup,
      processObjectShard, addFullCopyTask, addPartialCopyTask, calcDigests,
      sampleMD5FS, List.enum, List.enumFrom, List.lookup, upsert, hfs]

/-- Witness for C3 (amended) with a missing source file on both the
prefix-check path and the absent-profile-digest path. -/
theorem planner_missing_source_panics_witness :
    (fun (_ : String) => (none : Option Bytes)) "/d/d.bin" = none ∧
    (10 : Int) ≤ 20 ∧
    (GenerateFileLists (fun _ => none) (fun _ => "")
        ⟨[], [("obj", ⟨1, [⟨"/e/d.bin", some 10, some "x"⟩]⟩)]⟩
        ⟨[], [("obj", ⟨1, [⟨"/d/d.bin", some 20, some "y"⟩]⟩)]⟩ false =
        .error .sampleFailed ∧
      GenerateFileLists (fun _ => none) (fun _ => "") ⟨[], []⟩
        ⟨[("obj", ⟨"R", 1, [⟨"/d/d.bin", some 20, none⟩], []⟩)], []⟩ true =
        .error .digestFailed) :=
  ⟨rfl, by decide,
    planner_missing_source_panics (fun _ => none) (fun _ => "") "obj" "R"
      "/d/d.bin" "/e/d.bin" 1 1 20 10 (some "y") (some "x") true rfl
      (by decide)⟩

/-- C8: `MoveFile` (i) removes the source exactly on success — after any
failure return the source slice of the filesystem is unchanged — and
(ii) in append mode with a non-empty expected digest, a post-copy digest
mismatch returns the postcheck error and truncates the destination back to
its pre-copy contents (rollback), leaving the source in place. -/
theorem moveFile_atomicity (md5hex : Bytes → String) (st : MoveState)
    (mode : CopyMode) (ed : String) (eds : Int) :
    (∀ u st2, moveFile md5hex st mode ed eds = (.ok u, st2) →
      st2.src = none) ∧
    (∀ e st2, moveFile md5hex st mode ed eds = (.error e, st2) →
      st2.src = st.src) ∧
    (∀ sc r, mode = .append → ed ≠ "" → st.src = some (sc, true) →
      ¬(0 ≤ eds ∧ ((st.dst.getD [] : Bytes).length : Int) ≠ eds) →
      sampleMD5 md5hex (st.dst.getD [] ++ sc) 0 0 = .ok r →
      r.digest ≠ ed →
      moveFile md5hex st mode ed eds =
        (.error .digestPostcheckFailed, ⟨st.src, some (st.dst.getD [])⟩)) := by
  refine ⟨?_, ?_, ?_⟩
  · intro u st2 h
    simp only [moveFile] at h
    repeat' split at h
    all_goals first
      | (cases h; rfl)
      | (cases h; simp_all)
      | simp_all
  · intro e st2 h
    simp only [moveFile] at h
    repeat' split at h
    all_goals first
      | (cases h; rfl)
      | (cases h; simp_all)
      | simp_all
  · intro sc r hmode hed hsrc hpre hr hne
    subst hmode
    simp only [moveFile, hsrc]
    repeat' split
    all_goals simp_all [Int.toNat_natCast, List.take_left]

/-- C9: in `onFileTransferred` the bucket-object delete callback runs
exactly when the `MoveFile` call succeeded, the task store is present, and
the `Downloaded` status update succeeded — and in that case the trace is
the `MoveFile` call, then the `Downloaded` status write, then the delete
callback, in this order.  In particular the callback is never invoked when
`MoveFile` or the status update fails. -/
theorem onFileTransferred_callback_order (moveRes : Except MoveErr Unit)
    (dbPresent : Bool) (updateRes callbackRes : Except Unit Unit) :
    (RecvEvent.deleteCallback ∈
        (onFileTransferred moveRes dbPresent updateRes callbackRes).1 ↔
      moveRes = .ok () ∧ dbPresent = true ∧ updateRes = .ok ()) ∧
    (RecvEvent.deleteCallback ∈
        (onFileTransferred moveRes dbPresent updateRes callbackRes).1 →
      (onFileTransferred moveRes dbPresent updateRes callbackRes).1 =
        [.moveFileCall, .updateTask .downloaded, .deleteCallback]) := by
  rcases moveRes with e | u
  · simp [onFileTransferred]
  · rcases dbPresent
    · simp [onFileTransferred]
    · rcases updateRes with e | u2
      · simp [onFileTransferred]
      · rcases callbackRes with e | u3 <;> simp [onFileTransferred]

end Syncmate
